import Mathlib

/-!
# Verification of the Bomberman player entity (`src/src/entities/player.ts`)

Shallow embedding of the `Player` class of `player.ts`.  Conventions:

* Grid cells are integer pairs; JavaScript numbers that the claims exercise
  are always integral, so coordinates, lives and stat counters are `Int`
  (`speed`, which is incremented by `0.5`, is `ℚ`).  `x % 2 === 0` in
  JavaScript agrees with `Int.emod x 2 = 0` (evenness) on integers.
* DOM queries (`.block`, `.bomb`, `.green-space`, `.player` elements) are
  modelled as explicit finite data passed in: characteristic functions
  `Cell → Bool` or association lists, standing for the set of rendered
  entities at the moment of the call.
* `setTimeout` callbacks are modelled as separate step functions on the
  player state, invoked by the (single-threaded) scheduler at the deadline;
  a pending timer is recorded as its deadline.
* Event-bus emissions and `sendToServer` calls are collected in an output
  list `List OutEvent`, in emission order.
-/

namespace Bomberman

/-- A grid cell: integer coordinates, as produced by `Math.floor`. -/
abbrev Cell := Int × Int

/-- `const GRID_WIDTH = 14` (both in `isValidPosition` and
`isValidExplosionPosition`). -/
def GRID_WIDTH : Int := 14

/-- `const GRID_HEIGHT = 16`. -/
def GRID_HEIGHT : Int := 16

/-- The DOM-derived obstacle sets that `isValidPosition` queries
(`.green-space`, `.block`, `.bomb` elements), by grid cell. -/
structure GridObjects where
  greenSpace : Cell → Bool
  block : Cell → Bool
  bomb : Cell → Bool

/-- `Player.isValidPosition(x, y)` (player.ts lines 428-491), at integer
positions (where `Math.floor` is the identity, so `gridX = x`, `gridY = y`):
bounds `0 ≤ x < 14`, `0 ≤ y < 16` exclusive of the far border; parity walls
at both-even cells; border walls at `x = 0` or `y = 0`; green spaces
override blocks and bombs; blocks and bombs are impassable. -/
def isValidPosition (g : GridObjects) (x y : Int) : Bool :=
  if x < 0 ∨ y < 0 ∨ GRID_WIDTH ≤ x ∨ GRID_HEIGHT ≤ y then false
  else if x % 2 = 0 ∧ y % 2 = 0 then false
  else if x = 0 ∨ y = 0 then false
  else if g.greenSpace (x, y) then true
  else if g.block (x, y) then false
  else if g.bomb (x, y) then false
  else true

/-- `Player.isValidExplosionPosition(x, y)` (player.ts lines 1166-1188):
bounds reject only `x > 14` or `y > 16` (the far border cell is allowed,
unlike movement); parity walls at both-even cells; border walls at
`x = 0` or `y = 0`. -/
def isValidExplosionPosition (x y : Int) : Bool :=
  if x < 0 ∨ y < 0 ∨ GRID_WIDTH < x ∨ GRID_HEIGHT < y then false
  else if x % 2 = 0 ∧ y % 2 = 0 then false
  else if x = 0 ∨ y = 0 then false
  else true

/-- `Player.destroyBlockAt(x, y, destroyedBlocks)` (player.ts lines
1223-1335), restricted to its return value and its effect on the
explosion-scoped `destroyedBlocks` set.  `blocks` is the set of `.block`
elements (constant during one synchronous detonation: removal is deferred
500 ms).  Returns whether a block was destroyed, and the updated set. -/
def destroyBlockAt (blocks : Cell → Bool) (c : Cell) (destroyed : List Cell) :
    Bool × List Cell :=
  if c ∈ destroyed then (false, destroyed)
  else if blocks c then (true, c :: destroyed)
  else (false, destroyed)

/-- The per-direction loop of `Player.createExplosion` (player.ts lines
1056-1122): starting just outside `c`, step in direction `(dx, dy)` up to
`steps` more cells; stop (rendering nothing at it) at the first cell that
fails `isValidExplosionPosition`; otherwise render the blast at the cell,
run `destroyBlockAt` on it, and stop after it when a block was destroyed.
Returns the list of cells at which a blast was rendered, in order, and the
final `destroyedBlocks` set. -/
def processRayAux (blocks : Cell → Bool) (dx dy : Int) :
    Nat → Cell → List Cell → List Cell × List Cell
  | 0, _, destroyed => ([], destroyed)
  | steps + 1, c, destroyed =>
    let c1 : Cell := (c.1 + dx, c.2 + dy)
    if isValidExplosionPosition c1.1 c1.2 then
      let r := destroyBlockAt blocks c1 destroyed
      if r.1 then ([c1], r.2)
      else
        let rest := processRayAux blocks dx dy steps c1 r.2
        (c1 :: rest.1, rest.2)
    else ([], destroyed)

/-- The four directional blast lists produced by one
`createExplosion(x, y, radius)` call, plus the final destroyed-cells set.
Directions are processed in source order up, right, down, left (player.ts
lines 1048-1053), sharing one `destroyedBlocks` set that is seeded by the
centre-cell `destroyBlockAt` (line 1028). -/
structure ExplosionRays where
  up : List Cell
  right : List Cell
  down : List Cell
  left : List Cell
  destroyed : List Cell
deriving Repr, DecidableEq

/-- The block-destruction and blast-cell structure of
`Player.createExplosion(x, y, radius)` (player.ts lines 998-1163). -/
def createExplosionRays (blocks : Cell → Bool) (x y : Int) (radius : Nat) :
    ExplosionRays :=
  let d0 := (destroyBlockAt blocks (x, y) []).2
  let u := processRayAux blocks 0 (-1) radius (x, y) d0
  let r := processRayAux blocks 1 0 radius (x, y) u.2
  let d := processRayAux blocks 0 1 radius (x, y) r.2
  let l := processRayAux blocks (-1) 0 radius (x, y) d.2
  ⟨u.1, r.1, d.1, l.1, l.2⟩

/-- The `i`-th cell along a ray from origin `o` in direction `(dx, dy)`:
`(o.1 + dx * i, o.2 + dy * i)`, i.e. `x + dir.dx * i` of the source loop. -/
def dcell (o : Cell) (dx dy : Int) (i : Nat) : Cell :=
  (o.1 + dx * (i : Int), o.2 + dy * (i : Int))

/-- Formalisation of the spec's description of one blast ray (spec §4.3 and
the C3 claim): the rendered cells are a contiguous prefix of
`o + 1·d, …, o + R·d`; every rendered cell passes the blast check; no
rendered cell except possibly the last holds a block; an early stop happens
only because the next cell fails the blast check (excluded) or the last
rendered cell held a block (included); and with no wall or block within `R`
steps the prefix has full length `R`. -/
def RaySpec (blocks : Cell → Bool) (o : Cell) (dx dy : Int) (R : Nat)
    (L : List Cell) : Prop :=
  ∃ n, n ≤ R ∧
    L = (List.range n).map (fun k => dcell o dx dy (k + 1)) ∧
    (∀ k, k < n →
      isValidExplosionPosition (dcell o dx dy (k + 1)).1 (dcell o dx dy (k + 1)).2 = true) ∧
    (∀ k, k + 1 < n → blocks (dcell o dx dy (k + 1)) = false) ∧
    (n < R →
      isValidExplosionPosition (dcell o dx dy (n + 1)).1 (dcell o dx dy (n + 1)).2 = false ∨
      (0 < n ∧ blocks (dcell o dx dy n) = true)) ∧
    ((∀ i, 1 ≤ i → i ≤ R →
        isValidExplosionPosition (dcell o dx dy i).1 (dcell o dx dy i).2 = true ∧
        blocks (dcell o dx dy i) = false) → n = R)

/-- Event-bus emissions and `sendToServer` relay messages produced by a
handler, in emission order.  `server…` constructors are `sendToServer`
calls; the others are `eventBus.emit` topics. -/
inductive OutEvent where
  /-- `eventBus.emit('player:damaged', { id, livesRemaining })`. -/
  | playerDamaged (id : String) (livesRemaining : Int)
  /-- `sendToServer(EVENTS.PLAYER_HIT, { playerId, attackerId })`. -/
  | serverPlayerHit (playerId attackerId : String)
  /-- `eventBus.emit('player:invulnerabilityStart', { id })`. -/
  | invulnStart (id : String)
  /-- `eventBus.emit('player:invulnerabilityEnd', { id })`. -/
  | invulnEnd (id : String)
  /-- `eventBus.emit('player:eliminated', { id, eliminatedBy })`. -/
  | playerEliminated (id : String) (eliminatedBy : String)
  /-- `sendToServer('player_eliminated', { playerId, attackerId })`. -/
  | serverPlayerEliminated (playerId attackerId : String)
  /-- `sendToServer(EVENTS.PLAYER_ELIMINATED, { playerId, attackerId,
  forceBroadcast: true })` — the self-elimination rebroadcast. -/
  | serverPlayerEliminatedForce (playerId attackerId : String)
  /-- `sendToServer(EVENTS.DROP_BOMB, { x, y, explosionRange })`. -/
  | serverDropBomb (x y explosionRange : Int)
  /-- `eventBus.emit('bomb:placed', { playerId, x, y, range })`. -/
  | bombPlaced (playerId : String) (x y range : Int)
  /-- `eventBus.emit('player:statsUpdate', { id, stats, lives })`
  (from `emitStatsUpdate`). -/
  | statsUpdate (id : String) (speed : ℚ) (bombCapacity explosionRange lives : Int)
  /-- `eventBus.emit('player:hit', { playerId, attackerId })`. -/
  | hitEvent (playerId attackerId : String)
deriving Repr, DecidableEq

/-- The mutable fields of the `Player` class that the claims concern
(player.ts lines 39-72).  `invulnTimer` models the pending
`invulnerabilityTimer` as the absolute deadline of its `setTimeout`
callback (`none` when the field is `null`).  `x`, `y` are the
grid-aligned integer position (keyboard movement steps by whole tiles, so
`Math.floor` of the position is the position itself). -/
structure PlayerState where
  id : String
  x : Int
  y : Int
  lives : Int
  invulnerable : Bool
  invulnTimer : Option Int
  speed : ℚ
  bombCapacity : Int
  explosionRange : Int
  bombCooldown : Bool
  activeBombs : Int
deriving Repr, DecidableEq

/-- A freshly constructed player at `(3, 3)`: the class field initialisers
`lives = 3`, `invulnerable = false`, `speed = 3`, `bombCapacity = 1`,
`explosionRange = 1`, `bombCooldown = false`, `activeBombs = 0`. -/
def initPlayer : PlayerState :=
  { id := "p1", x := 3, y := 3, lives := 3, invulnerable := false,
    invulnTimer := none, speed := 3, bombCapacity := 1, explosionRange := 1,
    bombCooldown := false, activeBombs := 0 }

/-- Payload of a `player:hit` event: `data.playerId` and the possibly
absent `data.attackerId` (`data.attackerId || this.id` defaults it). -/
structure HitData where
  playerId : String
  attackerId : Option String
deriving Repr, DecidableEq

/-- `Player.setInvulnerable()` (player.ts lines 827-856), called at time
`now`: sets the flag, clears any existing timer and schedules a fresh
invulnerability-end callback `invulnerabilityDuration = 2000` ms out, then
emits `player:invulnerabilityStart`. -/
def setInvulnerable (p : PlayerState) (now : Int) : PlayerState × List OutEvent :=
  ({ p with invulnerable := true, invulnTimer := some (now + 2000) },
   [.invulnStart p.id])

/-- The `setTimeout` callback scheduled by `setInvulnerable` (player.ts
lines 841-852): clears the flag and the timer field and emits
`player:invulnerabilityEnd`. -/
def invulnTimerFire (p : PlayerState) : PlayerState × List OutEvent :=
  ({ p with invulnerable := false, invulnTimer := none }, [.invulnEnd p.id])

/-- `Player.handleHit(data)` (player.ts lines 755-824), received at time
`now`.  Ignores events for other players and events while invulnerable;
otherwise decrements lives, emits `player:damaged`, sends `PLAYER_HIT`
(attacker defaulted to self), calls `setInvulnerable`, and when lives
reach `≤ 0` emits/sends the elimination messages, with the extra
force-broadcast `PLAYER_ELIMINATED` exactly when `data.attackerId` strictly
equals the player's own id. -/
def handleHit (p : PlayerState) (d : HitData) (now : Int) :
    PlayerState × List OutEvent :=
  if d.playerId ≠ p.id then (p, [])
  else if p.invulnerable then (p, [])
  else
    let p1 := { p with lives := p.lives - 1 }
    let atk := d.attackerId.getD p.id
    let si := setInvulnerable p1 now
    let evs := [.playerDamaged p.id p1.lives, .serverPlayerHit p.id atk] ++ si.2
    if p1.lives ≤ 0 then
      (si.1, evs ++ [.playerEliminated p.id atk, .serverPlayerEliminated p.id atk] ++
        (if d.attackerId = some p.id then [.serverPlayerEliminatedForce p.id p.id] else []))
    else (si.1, evs)

/-- The power-up kind after `handlePowerUp`'s string-to-enum conversion
(player.ts lines 515-529): `PowerUpType.BOMB/FLAME/SPEED` from the
power-ups module, the raw string `'extraLife'` (left unconverted, matched
by its own case), or anything else (the `default` case). -/
inductive PowerupKind where
  | bomb
  | flame
  | speed
  | extraLife
  | other
deriving Repr, DecidableEq

/-- Payload of a `powerup:applied` event: `data.playerId`, whether
`data.source === 'visual_verification'`, and the (converted) type. -/
structure PowerUpData where
  playerId : String
  verified : Bool
  kind : PowerupKind
deriving Repr, DecidableEq

/-- `emitStatsUpdate` (player.ts lines 868-874). -/
def emitStatsUpdate (p : PlayerState) : OutEvent :=
  .statsUpdate p.id p.speed p.bombCapacity p.explosionRange p.lives

/-- `Player.handlePowerUp(data)` (player.ts lines 503-556): ignores events
for other players or without visual-verification provenance; applies
`bombCapacity += 1` / `explosionRange += 1` / `speed += 0.5` /
`lives += 1` ('extraLife'); returns early without a stats update on an
unknown type. -/
def handlePowerUp (p : PlayerState) (d : PowerUpData) :
    PlayerState × List OutEvent :=
  if d.playerId ≠ p.id then (p, [])
  else if ¬ d.verified then (p, [])
  else
    match d.kind with
    | .bomb =>
      let p1 := { p with bombCapacity := p.bombCapacity + 1 }
      (p1, [emitStatsUpdate p1])
    | .flame =>
      let p1 := { p with explosionRange := p.explosionRange + 1 }
      (p1, [emitStatsUpdate p1])
    | .speed =>
      let p1 := { p with speed := p.speed + 1/2 }
      (p1, [emitStatsUpdate p1])
    | .extraLife =>
      let p1 := { p with lives := p.lives + 1 }
      (p1, [emitStatsUpdate p1])
    | .other => (p, [])

/-- The stat targeted by a `stat:updated` event (player.ts lines 714-745):
the string/enum case pairs `'bombCapacity' | PowerUpType.BOMB`,
`'explosionRange' | PowerUpType.FLAME`, `'speed' | PowerUpType.SPEED`
behave identically and are merged; `'extraLife'`; or the logged `default`
case. -/
inductive StatKind where
  | capacity
  | range
  | speed
  | extraLife
  | other
deriving Repr, DecidableEq

/-- Payload of a `stat:updated` event.  `value` is `data.value`
(integer-valued in every use). -/
structure StatData where
  playerId : String
  kind : StatKind
  value : Int
deriving Repr, DecidableEq

/-- `Player.handleStatUpdate(data)` (player.ts lines 708-752): ignores
events for other players; sets the stat to `data.value` when positive,
otherwise increments it; `'extraLife'` does `lives += 1`; unknown types
fall through; all non-ignored paths end in `emitStatsUpdate`. -/
def handleStatUpdate (p : PlayerState) (d : StatData) :
    PlayerState × List OutEvent :=
  if d.playerId ≠ p.id then (p, [])
  else
    let p1 :=
      match d.kind with
      | .capacity =>
        if d.value > 0 then { p with bombCapacity := d.value }
        else { p with bombCapacity := p.bombCapacity + 1 }
      | .range =>
        if d.value > 0 then { p with explosionRange := d.value }
        else { p with explosionRange := p.explosionRange + 1 }
      | .speed =>
        if d.value > 0 then { p with speed := (d.value : ℚ) }
        else { p with speed := p.speed + 1/2 }
      | .extraLife => { p with lives := p.lives + 1 }
      | .other => p
    (p1, [emitStatsUpdate p1])

/-- Environment of a `placeBomb` call: whether `playerElement` and
`gameContainer` are non-null, the `isGamePaused` flag, and the set of
`.bomb` DOM elements by grid cell. -/
structure BombEnv where
  hasElement : Bool
  paused : Bool
  bombAt : Cell → Bool

/-- The fuse `setTimeout` closure created by `placeBomb` (player.ts lines
985-994): it captures only the local constants `gridX`, `gridY` (and
`this`); the explosion range is *not* captured. -/
structure FuseTimer where
  gridX : Int
  gridY : Int
deriving Repr, DecidableEq

/-- `Player.placeBomb()` (player.ts lines 898-995).  Guards, in source
order: element present, not paused, cooldown idle, `activeBombs <
bombCapacity`, no existing `.bomb` at the player's cell; each failing
guard returns with no state change, no event and no scheduled fuse.  On
success: increments `activeBombs`, raises the cooldown flag, sends
`DROP_BOMB` with the *current* `explosionRange`, emits `bomb:placed`, and
schedules the 2000 ms fuse callback capturing `(gridX, gridY)`. -/
def placeBomb (env : BombEnv) (p : PlayerState) :
    PlayerState × List OutEvent × Option FuseTimer :=
  if ¬ env.hasElement then (p, [], none)
  else if env.paused then (p, [], none)
  else if p.bombCooldown then (p, [], none)
  else if p.bombCapacity ≤ p.activeBombs then (p, [], none)
  else if env.bombAt (p.x, p.y) then (p, [], none)
  else
    ({ p with activeBombs := p.activeBombs + 1, bombCooldown := true },
     [.serverDropBomb p.x p.y p.explosionRange,
      .bombPlaced p.id p.x p.y p.explosionRange],
     some ⟨p.x, p.y⟩)

/-- The fuse callback body (player.ts lines 985-994): decrements
`activeBombs` and invokes `createExplosion(gridX, gridY,
this.explosionRange)` — reading the *current* field `this.explosionRange`
at expiry time, 2000 ms after placement.  Returns the updated player and
the `(x, y, radius)` triple the explosion is invoked with. -/
def fireFuse (p : PlayerState) (t : FuseTimer) :
    PlayerState × Int × Int × Int :=
  ({ p with activeBombs := p.activeBombs - 1 },
   t.gridX, t.gridY, p.explosionRange)

/-- `Player.checkPlayerHit(x, y)` (player.ts lines 1191-1220): for every
`.player` DOM element whose floored position equals the blast cell, emit
`player:hit` with that element's id as victim and this player as
attacker.  `players` lists the `.player` elements as (id, cell) pairs. -/
def checkPlayerHit (players : List (String × Cell)) (attackerId : String)
    (c : Cell) : List OutEvent :=
  players.filterMap fun q =>
    if q.2 = c then some (.hitEvent q.1 attackerId) else none

/-- The hit resolution `createExplosion` performs at the centre cell
(player.ts lines 1030-1045): `checkPlayerHit`, then — when this client is
the locally-controlled player and its own floored position equals the
cell — one more explicit `player:hit` self-emission. -/
def resolveCellHits (players : List (String × Cell)) (p : PlayerState)
    (isLocal : Bool) (c : Cell) : List OutEvent :=
  checkPlayerHit players p.id c ++
    (if isLocal ∧ (p.x, p.y) = c then [.hitEvent p.id p.id] else [])

/-! ## Helper lemmas -/

theorem dcell_one (o : Cell) (dx dy : Int) :
    dcell o dx dy 1 = (o.1 + dx, o.2 + dy) := by
  unfold dcell
  have h1 : o.1 + dx * ((1 : Nat) : Int) = o.1 + dx := by push_cast; ring
  have h2 : o.2 + dy * ((1 : Nat) : Int) = o.2 + dy := by push_cast; ring
  rw [h1, h2]

theorem dcell_shift (o : Cell) (dx dy : Int) (i : Nat) :
    dcell (o.1 + dx, o.2 + dy) dx dy i = dcell o dx dy (i + 1) := by
  unfold dcell
  have h1 : o.1 + dx + dx * (i : Int) = o.1 + dx * ((i : Nat) + 1 : Int) := by ring
  have h2 : o.2 + dy + dy * (i : Int) = o.2 + dy * ((i : Nat) + 1 : Int) := by ring
  rw [show (((i + 1 : Nat)) : Int) = ((i : Nat) + 1 : Int) by push_cast; ring]
  rw [h1, h2]

theorem dcell_up (x y : Int) (i : Nat) :
    dcell (x, y) 0 (-1) i = (x, y - (i : Int)) := by
  unfold dcell
  have h1 : x + 0 * (i : Int) = x := by ring
  have h2 : y + (-1) * (i : Int) = y - (i : Int) := by ring
  rw [h1, h2]

theorem dcell_right (x y : Int) (i : Nat) :
    dcell (x, y) 1 0 i = (x + (i : Int), y) := by
  unfold dcell
  have h1 : x + 1 * (i : Int) = x + (i : Int) := by ring
  have h2 : y + 0 * (i : Int) = y := by ring
  rw [h1, h2]

theorem dcell_down (x y : Int) (i : Nat) :
    dcell (x, y) 0 1 i = (x, y + (i : Int)) := by
  unfold dcell
  have h1 : x + 0 * (i : Int) = x := by ring
  have h2 : y + 1 * (i : Int) = y + (i : Int) := by ring
  rw [h1, h2]

theorem dcell_left (x y : Int) (i : Nat) :
    dcell (x, y) (-1) 0 i = (x - (i : Int), y) := by
  unfold dcell
  have h1 : x + (-1) * (i : Int) = x - (i : Int) := by ring
  have h2 : y + 0 * (i : Int) = y := by ring
  rw [h1, h2]

theorem mem_destroyBlockAt_nil (blocks : Cell → Bool) (c a : Cell)
    (h : a ∈ (destroyBlockAt blocks c []).2) : a = c := by
  unfold destroyBlockAt at h
  cases hb : blocks c <;> simp [hb] at h
  exact h

/-- Structure theorem for one directional explosion loop: provided no cell
of the ray is already in the incoming destroyed set, the rendered cells are
the contiguous prefix described by the spec. -/
theorem processRay_core (blocks : Cell → Bool) (dx dy : Int) :
    ∀ (steps : Nat) (c : Cell) (destroyed : List Cell),
      (∀ i : Nat, 1 ≤ i → i ≤ steps → dcell c dx dy i ∉ destroyed) →
      ∃ n, n ≤ steps ∧
        (processRayAux blocks dx dy steps c destroyed).1 =
          (List.range n).map (fun k => dcell c dx dy (k + 1)) ∧
        (∀ k, k < n →
          isValidExplosionPosition (dcell c dx dy (k + 1)).1 (dcell c dx dy (k + 1)).2 = true) ∧
        (∀ k, k + 1 < n → blocks (dcell c dx dy (k + 1)) = false) ∧
        (n < steps →
          isValidExplosionPosition (dcell c dx dy (n + 1)).1 (dcell c dx dy (n + 1)).2 = false ∨
          (0 < n ∧ blocks (dcell c dx dy n) = true)) := by
  intro steps
  induction steps with
  | zero =>
    intro c destroyed _
    refine ⟨0, Nat.le_refl 0, by simp [processRayAux], ?_, ?_, ?_⟩
    · intro k hk; exact absurd hk (by omega)
    · intro k hk; exact absurd hk (by omega)
    · intro hk; exact absurd hk (by omega)
  | succ s ih =>
    intro c destroyed h
    have h1mem : dcell c dx dy 1 ∉ destroyed := h 1 (Nat.le_refl 1) (by omega)
    rw [dcell_one] at h1mem
    cases hv : isValidExplosionPosition (c.1 + dx) (c.2 + dy) with
    | false =>
      refine ⟨0, Nat.zero_le _, by simp [processRayAux, hv], ?_, ?_, ?_⟩
      · intro k hk; exact absurd hk (by omega)
      · intro k hk; exact absurd hk (by omega)
      · intro _
        left
        simpa [dcell_one] using hv
    | true =>
      cases hb : blocks (c.1 + dx, c.2 + dy) with
      | true =>
        refine ⟨1, by omega, ?_, ?_, ?_, ?_⟩
        · have hr1 : List.range 1 = [0] := rfl
          simp [processRayAux, hv, destroyBlockAt, h1mem, hb, hr1, dcell_one]
        · intro k hk
          have hk0 : k = 0 := by omega
          subst hk0
          simpa [dcell_one] using hv
        · intro k hk; exact absurd hk (by omega)
        · intro _
          right
          exact ⟨by omega, by simpa [dcell_one] using hb⟩
      | false =>
        have hsub : ∀ i : Nat, 1 ≤ i → i ≤ s →
            dcell (c.1 + dx, c.2 + dy) dx dy i ∉ destroyed := by
          intro i hi1 hi2 hmem
          rw [dcell_shift] at hmem
          exact h (i + 1) (by omega) (by omega) hmem
        obtain ⟨n, hn, hfst, hvali, hblk, hstop⟩ := ih (c.1 + dx, c.2 + dy) destroyed hsub
        have hunf : (processRayAux blocks dx dy (s + 1) c destroyed).1 =
            (c.1 + dx, c.2 + dy) ::
              (processRayAux blocks dx dy s (c.1 + dx, c.2 + dy) destroyed).1 := by
          simp [processRayAux, hv, destroyBlockAt, h1mem, hb]
        refine ⟨n + 1, by omega, ?_, ?_, ?_, ?_⟩
        · have hhead : dcell c dx dy (0 + 1) = (c.1 + dx, c.2 + dy) := by
            simpa using dcell_one c dx dy
          have htail : (fun k => dcell (c.1 + dx, c.2 + dy) dx dy (k + 1)) =
              ((fun k => dcell c dx dy (k + 1)) ∘ Nat.succ) := by
            funext k
            simp only [Function.comp]
            rw [dcell_shift]
          rw [hunf, hfst, htail, List.range_succ_eq_map, List.map_cons, List.map_map, hhead]
        · intro k hk
          cases k with
          | zero => simpa [dcell_one] using hv
          | succ j =>
            have hj := hvali j (by omega)
            rw [dcell_shift] at hj
            exact hj
        · intro k hk
          cases k with
          | zero => simpa [dcell_one] using hb
          | succ j =>
            have hj := hblk j (by omega)
            rw [dcell_shift] at hj
            exact hj
        · intro hlt
          rcases hstop (by omega) with hval | ⟨hn0, hbn⟩
          · left
            rw [dcell_shift] at hval
            exact hval
          · right
            refine ⟨by omega, ?_⟩
            rw [dcell_shift] at hbn
            exact hbn

/-- Everything the explosion loop adds to the destroyed set lies on that
ray (at distance between 1 and `steps` from the origin). -/
theorem processRay_snd_mem (blocks : Cell → Bool) (dx dy : Int) :
    ∀ (steps : Nat) (c : Cell) (destroyed : List Cell) (a : Cell),
      a ∈ (processRayAux blocks dx dy steps c destroyed).2 →
      a ∈ destroyed ∨ ∃ i : Nat, 1 ≤ i ∧ i ≤ steps ∧ a = dcell c dx dy i := by
  intro steps
  induction steps with
  | zero =>
    intro c destroyed a ha
    left
    simpa [processRayAux] using ha
  | succ s ih =>
    intro c destroyed a ha
    cases hv : isValidExplosionPosition (c.1 + dx) (c.2 + dy) with
    | false =>
      left
      simpa [processRayAux, hv] using ha
    | true =>
      by_cases hm : (c.1 + dx, c.2 + dy) ∈ destroyed
      · have ha' : a ∈ (processRayAux blocks dx dy s (c.1 + dx, c.2 + dy) destroyed).2 := by
          simpa [processRayAux, hv, destroyBlockAt, hm] using ha
        rcases ih _ _ _ ha' with hmem | ⟨i, hi1, hi2, he⟩
        · left; exact hmem
        · right
          refine ⟨i + 1, by omega, by omega, ?_⟩
          rw [he, dcell_shift]
      · cases hb : blocks (c.1 + dx, c.2 + dy) with
        | true =>
          have ha' : a = (c.1 + dx, c.2 + dy) ∨ a ∈ destroyed := by
            simpa [processRayAux, hv, destroyBlockAt, hm, hb] using ha
          rcases ha' with he | hmem
          · right
            refine ⟨1, Nat.le_refl 1, by omega, ?_⟩
            rw [he, dcell_one]
          · left; exact hmem
        | false =>
          have ha' : a ∈ (processRayAux blocks dx dy s (c.1 + dx, c.2 + dy) destroyed).2 := by
            simpa [processRayAux, hv, destroyBlockAt, hm, hb] using ha
          rcases ih _ _ _ ha' with hmem | ⟨i, hi1, hi2, he⟩
          · left; exact hmem
          · right
            refine ⟨i + 1, by omega, by omega, ?_⟩
            rw [he, dcell_shift]

/-- `processRayAux` satisfies the spec's ray description whenever the
incoming destroyed set avoids the ray. -/
theorem processRay_raySpec (blocks : Cell → Bool) (dx dy : Int) (R : Nat)
    (o : Cell) (destroyed : List Cell)
    (h : ∀ i : Nat, 1 ≤ i → i ≤ R → dcell o dx dy i ∉ destroyed) :
    RaySpec blocks o dx dy R (processRayAux blocks dx dy R o destroyed).1 := by
  obtain ⟨n, hn, hfst, hval, hblk, hstop⟩ := processRay_core blocks dx dy R o destroyed h
  refine ⟨n, hn, hfst, hval, hblk, hstop, ?_⟩
  intro hall
  by_contra hne
  have hlt : n < R := lt_of_le_of_ne hn hne
  rcases hstop hlt with hv | ⟨hn0, hb⟩
  · have hv' := (hall (n + 1) (by omega) (by omega)).1
    simp [hv] at hv'
  · have hb' := (hall n (by omega) hn).2
    simp [hb'] at hb

/-! ## Claim theorems -/

/-- **C3.** For every detonation at origin cell `C = (x, y)` with radius
`R`, and for each of the four cardinal directions, the cells at which a
blast is rendered in that direction form a contiguous prefix of
`C + 1·d, …, C + R·d`: the prefix ends immediately before the first cell
that fails the blast-bounds/parity/border check (that cell excluded, no
further cells processed), or at the first cell containing a destructible
block (that cell included, the ray stops after it), whichever comes first;
with no wall or block within `R` steps the prefix has full length `R`. -/
theorem claim_C3_ray_contiguous_prefix (blocks : Cell → Bool) (x y : Int)
    (R : Nat) :
    RaySpec blocks (x, y) 0 (-1) R (createExplosionRays blocks x y R).up ∧
    RaySpec blocks (x, y) 1 0 R (createExplosionRays blocks x y R).right ∧
    RaySpec blocks (x, y) 0 1 R (createExplosionRays blocks x y R).down ∧
    RaySpec blocks (x, y) (-1) 0 R (createExplosionRays blocks x y R).left := by
  have hmem0 : ∀ a, a ∈ (destroyBlockAt blocks (x, y) []).2 → a = (x, y) :=
    fun a ha => mem_destroyBlockAt_nil blocks (x, y) a ha
  -- the destroyed set handed to the up ray
  have hinv_up : ∀ i : Nat, 1 ≤ i → i ≤ R →
      dcell (x, y) 0 (-1) i ∉ (destroyBlockAt blocks (x, y) []).2 := by
    intro i hi1 _ hmem
    have he := hmem0 _ hmem
    rw [dcell_up] at he
    have h2 := congrArg Prod.snd he
    simp only at h2
    omega
  -- the destroyed set handed to the right ray
  have hmem1 : ∀ a, a ∈ (processRayAux blocks 0 (-1) R (x, y)
      (destroyBlockAt blocks (x, y) []).2).2 →
      a = (x, y) ∨ ∃ i : Nat, 1 ≤ i ∧ a = (x, y - (i : Int)) := by
    intro a ha
    rcases processRay_snd_mem blocks 0 (-1) R (x, y) _ a ha with hmem | ⟨i, hi1, _, he⟩
    · left; exact hmem0 _ hmem
    · right; exact ⟨i, hi1, by rw [he, dcell_up]⟩
  have hinv_right : ∀ i : Nat, 1 ≤ i → i ≤ R →
      dcell (x, y) 1 0 i ∉ (processRayAux blocks 0 (-1) R (x, y)
        (destroyBlockAt blocks (x, y) []).2).2 := by
    intro i hi1 _ hmem
    rw [dcell_right] at hmem
    rcases hmem1 _ hmem with he | ⟨j, hj1, he⟩
    · have h1 := congrArg Prod.fst he
      simp only at h1
      omega
    · have h1 := congrArg Prod.fst he
      simp only at h1
      omega
  -- the destroyed set handed to the down ray
  have hmem2 : ∀ a, a ∈ (processRayAux blocks 1 0 R (x, y)
      (processRayAux blocks 0 (-1) R (x, y) (destroyBlockAt blocks (x, y) []).2).2).2 →
      a = (x, y) ∨ (∃ i : Nat, 1 ≤ i ∧ a = (x, y - (i : Int))) ∨
        ∃ i : Nat, 1 ≤ i ∧ a = (x + (i : Int), y) := by
    intro a ha
    rcases processRay_snd_mem blocks 1 0 R (x, y) _ a ha with hmem | ⟨i, hi1, _, he⟩
    · rcases hmem1 _ hmem with he | ⟨j, hj1, he⟩
      · left; exact he
      · right; left; exact ⟨j, hj1, he⟩
    · right; right; exact ⟨i, hi1, by rw [he, dcell_right]⟩
  have hinv_down : ∀ i : Nat, 1 ≤ i → i ≤ R →
      dcell (x, y) 0 1 i ∉ (processRayAux blocks 1 0 R (x, y)
        (processRayAux blocks 0 (-1) R (x, y) (destroyBlockAt blocks (x, y) []).2).2).2 := by
    intro i hi1 _ hmem
    rw [dcell_down] at hmem
    rcases hmem2 _ hmem with he | ⟨j, hj1, he⟩ | ⟨j, hj1, he⟩
    · have h2 := congrArg Prod.snd he
      simp only at h2
      omega
    · have h2 := congrArg Prod.snd he
      simp only at h2
      omega
    · have h1 := congrArg Prod.fst he
      simp only at h1
      omega
  -- the destroyed set handed to the left ray
  have hmem3 : ∀ a, a ∈ (processRayAux blocks 0 1 R (x, y)
      (processRayAux blocks 1 0 R (x, y)
        (processRayAux blocks 0 (-1) R (x, y) (destroyBlockAt blocks (x, y) []).2).2).2).2 →
      a = (x, y) ∨ (∃ i : Nat, 1 ≤ i ∧ a = (x, y - (i : Int))) ∨
        (∃ i : Nat, 1 ≤ i ∧ a = (x + (i : Int), y)) ∨
        ∃ i : Nat, 1 ≤ i ∧ a = (x, y + (i : Int)) := by
    intro a ha
    rcases processRay_snd_mem blocks 0 1 R (x, y) _ a ha with hmem | ⟨i, hi1, _, he⟩
    · rcases hmem2 _ hmem with he | he | he
      · left; exact he
      · right; left; exact he
      · right; right; left; exact he
    · right; right; right; exact ⟨i, hi1, by rw [he, dcell_down]⟩
  have hinv_left : ∀ i : Nat, 1 ≤ i → i ≤ R →
      dcell (x, y) (-1) 0 i ∉ (processRayAux blocks 0 1 R (x, y)
        (processRayAux blocks 1 0 R (x, y)
          (processRayAux blocks 0 (-1) R (x, y) (destroyBlockAt blocks (x, y) []).2).2).2).2 := by
    intro i hi1 _ hmem
    rw [dcell_left] at hmem
    rcases hmem3 _ hmem with he | ⟨j, hj1, he⟩ | ⟨j, hj1, he⟩ | ⟨j, hj1, he⟩
    · have h1 := congrArg Prod.fst he
      simp only at h1
      omega
    · have h1 := congrArg Prod.fst he
      simp only at h1
      omega
    · have h1 := congrArg Prod.fst he
      simp only at h1
      omega
    · have h1 := congrArg Prod.fst he
      simp only at h1
      omega
  refine ⟨?_, ?_, ?_, ?_⟩
  · exact processRay_raySpec blocks 0 (-1) R (x, y) _ hinv_up
  · exact processRay_raySpec blocks 1 0 R (x, y) _ hinv_right
  · exact processRay_raySpec blocks 0 1 R (x, y) _ hinv_down
  · exact processRay_raySpec blocks (-1) 0 R (x, y) _ hinv_left

/-- **C4.** For every cell `(x, y)` with both coordinates even, or with
`x = 0`, or with `y = 0`: `isValidPosition x y` is `false` (movement into
the cell always fails, whatever blocks, bombs or green spaces exist), and
`isValidExplosionPosition x y` is `false`, so an explosion ray whose next
cell is `(x, y)` stops immediately and processes no further cells in that
direction. -/
theorem claim_C4_wall_cells_block_movement_and_blast (g : GridObjects)
    (blocks : Cell → Bool) (x y dx dy : Int) (steps : Nat) (c : Cell)
    (destroyed : List Cell)
    (h : (x % 2 = 0 ∧ y % 2 = 0) ∨ x = 0 ∨ y = 0)
    (h1 : c.1 + dx = x) (h2 : c.2 + dy = y) :
    isValidPosition g x y = false ∧
    isValidExplosionPosition x y = false ∧
    processRayAux blocks dx dy (steps + 1) c destroyed = ([], destroyed) := by
  have hexp : isValidExplosionPosition x y = false := by
    simp only [isValidExplosionPosition, GRID_WIDTH, GRID_HEIGHT]
    split_ifs <;> first | rfl | omega
  refine ⟨?_, hexp, ?_⟩
  · simp only [isValidPosition, GRID_WIDTH, GRID_HEIGHT]
    split_ifs <;> first | rfl | omega
  · simp [processRayAux, h1, h2, hexp]

theorem claim_C4_wall_cells_block_movement_and_blast_witness :
    ((((2 : Int) % 2 = 0 ∧ (2 : Int) % 2 = 0) ∨ (2 : Int) = 0 ∨ (2 : Int) = 0) ∧
      (2 : Int) + 0 = 2 ∧ (1 : Int) + 1 = 2) ∧
    (isValidPosition ⟨fun _ => false, fun _ => false, fun _ => false⟩ 2 2 = false ∧
     isValidExplosionPosition 2 2 = false ∧
     processRayAux (fun _ => false) 0 1 (2 + 1) (2, 1) [] = ([], [])) :=
  ⟨⟨by decide, by decide, by decide⟩,
   claim_C4_wall_cells_block_movement_and_blast
     ⟨fun _ => false, fun _ => false, fun _ => false⟩ (fun _ => false)
     2 2 0 1 2 (2, 1) [] (by decide) (by decide) (by decide)⟩

/-- **C6.** A `placeBomb` call while the cooldown flag is raised, or while
`activeBombs ≥ bombCapacity`, or while a bomb already occupies the
player's cell, is a silent no-op: the returned state is the unchanged
input state, no event (`DROP_BOMB`, `bomb:placed`) is produced, and no
fuse is scheduled (no bomb entity is created). -/
theorem claim_C6_placeBomb_silent_noop (env : BombEnv) (p : PlayerState)
    (h : p.bombCooldown = true ∨ p.bombCapacity ≤ p.activeBombs ∨
      env.bombAt (p.x, p.y) = true) :
    placeBomb env p = (p, [], none) := by
  unfold placeBomb
  split_ifs with h1 h2 h3 h4 h5 <;> try rfl
  rcases h with h | h | h
  · exact absurd h h3
  · exact absurd h h4
  · exact absurd h (by simpa using h5)

theorem claim_C6_placeBomb_silent_noop_witness :
    (({ initPlayer with bombCooldown := true } : PlayerState).bombCooldown = true ∨
      ({ initPlayer with bombCooldown := true } : PlayerState).bombCapacity ≤
        ({ initPlayer with bombCooldown := true } : PlayerState).activeBombs ∨
      (fun _ => false : Cell → Bool)
        (({ initPlayer with bombCooldown := true } : PlayerState).x,
         ({ initPlayer with bombCooldown := true } : PlayerState).y) = true) ∧
    placeBomb ⟨true, false, fun _ => false⟩ { initPlayer with bombCooldown := true } =
      ({ initPlayer with bombCooldown := true }, [], none) :=
  ⟨Or.inl rfl,
   claim_C6_placeBomb_silent_noop ⟨true, false, fun _ => false⟩
     { initPlayer with bombCooldown := true } (Or.inl rfl)⟩

/-- **C7.** A `player:hit` event delivered to a player whose
`invulnerable` flag is set changes nothing: the returned state equals the
input state (lives untouched, the pending invulnerability timer neither
cleared nor rescheduled) and no event or announcement is produced. -/
theorem claim_C7_invulnerable_hit_noop (p : PlayerState) (d : HitData)
    (now : Int) (hid : d.playerId = p.id) (hinv : p.invulnerable = true) :
    handleHit p d now = (p, []) := by
  unfold handleHit
  simp [hid, hinv]

theorem claim_C7_invulnerable_hit_noop_witness :
    (HitData.mk "p1" (some "p2")).playerId =
      ({ initPlayer with invulnerable := true, invulnTimer := some 500 } : PlayerState).id ∧
    ({ initPlayer with invulnerable := true, invulnTimer := some 500 } : PlayerState).invulnerable = true ∧
    handleHit { initPlayer with invulnerable := true, invulnTimer := some 500 }
        ⟨"p1", some "p2"⟩ 600 =
      ({ initPlayer with invulnerable := true, invulnTimer := some 500 }, []) :=
  ⟨rfl, rfl,
   claim_C7_invulnerable_hit_noop
     { initPlayer with invulnerable := true, invulnTimer := some 500 }
     ⟨"p1", some "p2"⟩ 600 rfl rfl⟩

/-- **C8.** Blast bounds include the far border cells while movement
bounds exclude them: for any odd `0 ≤ x ≤ 14` and odd `0 ≤ y ≤ 16` (so the
cells `(14, y)` and `(x, 16)` are neither parity nor border walls),
`isValidExplosionPosition` returns `true` at `x = 14` and at `y = 16`,
whereas `isValidPosition` returns `false` for every position with
`x ≥ 14` or `y ≥ 16` regardless of the obstacle sets; and both checks
reject `x = 0` and `y = 0`. -/
theorem claim_C8_blast_bounds_include_border (g : GridObjects)
    (x y u v : Int)
    (hxodd : x % 2 ≠ 0) (hx0 : 0 ≤ x) (hx14 : x ≤ 14)
    (hyodd : y % 2 ≠ 0) (hy0 : 0 ≤ y) (hy16 : y ≤ 16)
    (huv : 14 ≤ u ∨ 16 ≤ v) :
    isValidExplosionPosition 14 y = true ∧
    isValidExplosionPosition x 16 = true ∧
    isValidPosition g u v = false ∧
    isValidPosition g 0 y = false ∧
    isValidPosition g x 0 = false ∧
    isValidExplosionPosition 0 y = false ∧
    isValidExplosionPosition x 0 = false := by
  refine ⟨?_, ?_, ?_, ?_, ?_, ?_, ?_⟩ <;>
    simp only [isValidPosition, isValidExplosionPosition, GRID_WIDTH, GRID_HEIGHT] <;>
    split_ifs <;> first | rfl | omega | simp_all

theorem claim_C8_blast_bounds_include_border_witness :
    ((3 : Int) % 2 ≠ 0 ∧ (0 : Int) ≤ 3 ∧ (3 : Int) ≤ 14 ∧
     (5 : Int) % 2 ≠ 0 ∧ (0 : Int) ≤ 5 ∧ (5 : Int) ≤ 16 ∧
     ((14 : Int) ≤ 14 ∨ (16 : Int) ≤ 0)) ∧
    (isValidExplosionPosition 14 5 = true ∧
     isValidExplosionPosition 3 16 = true ∧
     isValidPosition ⟨fun _ => false, fun _ => false, fun _ => false⟩ 14 0 = false ∧
     isValidPosition ⟨fun _ => false, fun _ => false, fun _ => false⟩ 0 5 = false ∧
     isValidPosition ⟨fun _ => false, fun _ => false, fun _ => false⟩ 3 0 = false ∧
     isValidExplosionPosition 0 5 = false ∧
     isValidExplosionPosition 3 0 = false) :=
  ⟨⟨by decide, by decide, by decide, by decide, by decide, by decide, by decide⟩,
   claim_C8_blast_bounds_include_border
     ⟨fun _ => false, fun _ => false, fun _ => false⟩ 3 5 14 0
     (by decide) (by decide) (by decide) (by decide) (by decide) (by decide)
     (by decide)⟩

/-- **C9.** On an accepted (vulnerable) fatal hit, `setInvulnerable` runs
before the elimination check: the emission list places
`player:invulnerabilityStart` (index 2) before `player:eliminated`
(index 3); the eliminated player (lives now 0) is left marked
invulnerable with an invulnerability-end timer pending 2000 ms out; and
when that timer fires the flag clears and `player:invulnerabilityEnd` is
emitted for the already-eliminated player. -/
theorem claim_C9_fatal_hit_sets_invulnerable (p : PlayerState) (d : HitData)
    (now : Int) (hid : d.playerId = p.id) (hinv : p.invulnerable = false)
    (hl : p.lives = 1) :
    (handleHit p d now).1.invulnerable = true ∧
    (handleHit p d now).1.invulnTimer = some (now + 2000) ∧
    (handleHit p d now).1.lives = 0 ∧
    (handleHit p d now).2 =
      [.playerDamaged p.id 0, .serverPlayerHit p.id (d.attackerId.getD p.id),
       .invulnStart p.id,
       .playerEliminated p.id (d.attackerId.getD p.id),
       .serverPlayerEliminated p.id (d.attackerId.getD p.id)] ++
      (if d.attackerId = some p.id then
        [.serverPlayerEliminatedForce p.id p.id] else []) ∧
    (invulnTimerFire (handleHit p d now).1).1.invulnerable = false ∧
    (invulnTimerFire (handleHit p d now).1).1.invulnTimer = none ∧
    (invulnTimerFire (handleHit p d now).1).1.lives = 0 ∧
    (invulnTimerFire (handleHit p d now).1).2 = [.invulnEnd p.id] := by
  unfold handleHit setInvulnerable invulnTimerFire
  simp [hid, hinv, hl]

theorem claim_C9_fatal_hit_sets_invulnerable_witness :
    (HitData.mk "p1" (some "p2")).playerId =
      ({ initPlayer with lives := 1 } : PlayerState).id ∧
    ({ initPlayer with lives := 1 } : PlayerState).invulnerable = false ∧
    ({ initPlayer with lives := 1 } : PlayerState).lives = 1 ∧
    ((handleHit { initPlayer with lives := 1 } ⟨"p1", some "p2"⟩ 100).1.invulnerable = true ∧
     (handleHit { initPlayer with lives := 1 } ⟨"p1", some "p2"⟩ 100).1.invulnTimer = some (100 + 2000) ∧
     (handleHit { initPlayer with lives := 1 } ⟨"p1", some "p2"⟩ 100).1.lives = 0 ∧
     (handleHit { initPlayer with lives := 1 } ⟨"p1", some "p2"⟩ 100).2 =
       [.playerDamaged "p1" 0, .serverPlayerHit "p1" ((some "p2").getD "p1"),
        .invulnStart "p1",
        .playerEliminated "p1" ((some "p2").getD "p1"),
        .serverPlayerEliminated "p1" ((some "p2").getD "p1")] ++
       (if (some "p2" : Option String) = some "p1" then
         [.serverPlayerEliminatedForce "p1" "p1"] else []) ∧
     (invulnTimerFire (handleHit { initPlayer with lives := 1 } ⟨"p1", some "p2"⟩ 100).1).1.invulnerable = false ∧
     (invulnTimerFire (handleHit { initPlayer with lives := 1 } ⟨"p1", some "p2"⟩ 100).1).1.invulnTimer = none ∧
     (invulnTimerFire (handleHit { initPlayer with lives := 1 } ⟨"p1", some "p2"⟩ 100).1).1.lives = 0 ∧
     (invulnTimerFire (handleHit { initPlayer with lives := 1 } ⟨"p1", some "p2"⟩ 100).1).2 =
       [.invulnEnd "p1"]) :=
  ⟨rfl, rfl, rfl,
   claim_C9_fatal_hit_sets_invulnerable { initPlayer with lives := 1 }
     ⟨"p1", some "p2"⟩ 100 rfl rfl rfl⟩

/-- Counting the `player:hit` events `checkPlayerHit` emits for victim
`i`: one per `.player` element with id `i` standing at the blast cell. -/
theorem count_checkPlayerHit (players : List (String × Cell)) (a i : String)
    (c : Cell) :
    (checkPlayerHit players a c).count (.hitEvent i a) = players.count (i, c) := by
  induction players with
  | nil => rfl
  | cons q l ih =>
    unfold checkPlayerHit at ih ⊢
    rw [List.filterMap_cons]
    by_cases hc : q.2 = c
    · rw [if_pos hc]
      by_cases hi : q.1 = i
      · rw [List.count_cons, List.count_cons, ih]
        simp [hi, hc, Prod.ext_iff]
      · rw [List.count_cons, List.count_cons, ih]
        simp [hi, Prod.ext_iff]
    · rw [if_neg hc]
      rw [List.count_cons, ih]
      simp [hc, Prod.ext_iff]

/-- **C10.** When the detonating client is the locally-controlled player
and stands on a blast cell, resolving that one cell emits `player:hit`
for that player twice, both with `playerId` and `attackerId` equal to the
player's own id: once from `checkPlayerHit`'s scan over all `.player`
elements (the player's own element is among them, at that cell), and once
more from the explicit local-player self-overlap check. -/
theorem claim_C10_local_player_double_self_hit (players : List (String × Cell))
    (p : PlayerState) (c : Cell)
    (hcount : players.count (p.id, c) = 1) (hpos : (p.x, p.y) = c) :
    (resolveCellHits players p true c).count (.hitEvent p.id p.id) = 2 := by
  unfold resolveCellHits
  rw [List.count_append, count_checkPlayerHit, hcount]
  simp [hpos]

theorem claim_C10_local_player_double_self_hit_witness :
    ([("p1", ((3 : Int), (3 : Int)))].count (("p1" : String), ((3 : Int), (3 : Int))) = 1) ∧
    ((initPlayer.x, initPlayer.y) = ((3 : Int), (3 : Int))) ∧
    (resolveCellHits [("p1", (3, 3))] initPlayer true (3, 3)).count
      (.hitEvent "p1" "p1") = 2 :=
  ⟨by decide, rfl,
   claim_C10_local_player_double_self_hit [("p1", (3, 3))] initPlayer (3, 3)
     (by decide) rfl⟩

/-- **C1, counterexample.** An execution in which the placing player's
`explosionRange` increases between `placeBomb` and fuse expiry, and the
detonation does *not* use the placement-time value: `initPlayer` places a
bomb at `(3, 3)` while `explosionRange = 1` (the `DROP_BOMB` announcement
carries range 1); a flame power-up then raises `explosionRange` to 2; when
the fuse callback fires it invokes `createExplosion(3, 3,
this.explosionRange)` with the *current* value 2, not the placement-time
value 1 — refuting the claimed snapshot semantics. -/
theorem claim_C1_counterexample :
    (placeBomb ⟨true, false, fun _ => false⟩ initPlayer).2.2 = some ⟨3, 3⟩ ∧
    (placeBomb ⟨true, false, fun _ => false⟩ initPlayer).2.1 =
      [.serverDropBomb 3 3 1, .bombPlaced "p1" 3 3 1] ∧
    initPlayer.explosionRange = 1 ∧
    (handlePowerUp (placeBomb ⟨true, false, fun _ => false⟩ initPlayer).1
      ⟨"p1", true, .flame⟩).1.explosionRange = 2 ∧
    (fireFuse
      (handlePowerUp (placeBomb ⟨true, false, fun _ => false⟩ initPlayer).1
        ⟨"p1", true, .flame⟩).1
      ⟨3, 3⟩).2 = (3, 3, 2) := by
  decide

/-- **C1, amended.** The fuse callback captures only the bomb's cell; the
detonation it triggers uses the owner's `explosionRange` field as it is
*at expiry time* (`q` below — whatever state the player has then), while
the placement-time range is carried only by the `DROP_BOMB` announcement
and `bomb:placed` event emitted synchronously at placement. -/
theorem claim_C1_amended_range_read_at_expiry (env : BombEnv)
    (p q : PlayerState) (t : FuseTimer)
    (helem : env.hasElement = true) (hpause : env.paused = false)
    (hcool : p.bombCooldown = false) (hcap : p.activeBombs < p.bombCapacity)
    (hocc : env.bombAt (p.x, p.y) = false) :
    (placeBomb env p).2.1 =
      [.serverDropBomb p.x p.y p.explosionRange,
       .bombPlaced p.id p.x p.y p.explosionRange] ∧
    (placeBomb env p).2.2 = some ⟨p.x, p.y⟩ ∧
    (placeBomb env p).1.explosionRange = p.explosionRange ∧
    (fireFuse q t).2 = (t.gridX, t.gridY, q.explosionRange) ∧
    (fireFuse q t).1.activeBombs = q.activeBombs - 1 := by
  have hcap' : ¬ p.bombCapacity ≤ p.activeBombs := not_le.mpr hcap
  unfold placeBomb fireFuse
  simp [helem, hpause, hcool, hcap', hocc]

theorem claim_C1_amended_range_read_at_expiry_witness :
    ((⟨true, false, fun _ => false⟩ : BombEnv).hasElement = true ∧
     (⟨true, false, fun _ => false⟩ : BombEnv).paused = false ∧
     initPlayer.bombCooldown = false ∧
     initPlayer.activeBombs < initPlayer.bombCapacity ∧
     (⟨true, false, fun _ => false⟩ : BombEnv).bombAt (initPlayer.x, initPlayer.y) = false) ∧
    ((placeBomb ⟨true, false, fun _ => false⟩ initPlayer).2.1 =
       [.serverDropBomb 3 3 1, .bombPlaced "p1" 3 3 1] ∧
     (placeBomb ⟨true, false, fun _ => false⟩ initPlayer).2.2 = some ⟨3, 3⟩ ∧
     (placeBomb ⟨true, false, fun _ => false⟩ initPlayer).1.explosionRange = 1 ∧
     (fireFuse { initPlayer with explosionRange := 2 } ⟨3, 3⟩).2 = (3, 3, 2) ∧
     (fireFuse { initPlayer with explosionRange := 2 } ⟨3, 3⟩).1.activeBombs = 0 - 1) :=
  ⟨⟨rfl, rfl, rfl, by decide, rfl⟩,
   claim_C1_amended_range_read_at_expiry ⟨true, false, fun _ => false⟩
     initPlayer { initPlayer with explosionRange := 2 } ⟨3, 3⟩
     rfl rfl rfl (by decide) rfl⟩

/-- **C2, counterexample.** A player whose lives have reached 0 *does*
accept a later damage event: a fatal hit at time 0 leaves the eliminated
player with `lives = 0` and invulnerable; the invulnerability-end timer
fires 2000 ms later clearing the flag; a `player:hit` addressed to the
player at time 5000 then decrements lives again to `-1` and re-emits
`player:damaged`, `PLAYER_HIT` and a fresh elimination announcement —
refuting "no later damage event is ever accepted". -/
theorem claim_C2_counterexample :
    (handleHit { initPlayer with lives := 1 } ⟨"p1", some "p2"⟩ 0).1.lives = 0 ∧
    (invulnTimerFire
      (handleHit { initPlayer with lives := 1 } ⟨"p1", some "p2"⟩ 0).1).1.invulnerable = false ∧
    (handleHit
      (invulnTimerFire
        (handleHit { initPlayer with lives := 1 } ⟨"p1", some "p2"⟩ 0).1).1
      ⟨"p1", some "p2"⟩ 5000).1.lives = -1 ∧
    OutEvent.playerDamaged "p1" (-1) ∈
      (handleHit
        (invulnTimerFire
          (handleHit { initPlayer with lives := 1 } ⟨"p1", some "p2"⟩ 0).1).1
        ⟨"p1", some "p2"⟩ 5000).2 ∧
    OutEvent.serverPlayerHit "p1" "p2" ∈
      (handleHit
        (invulnTimerFire
          (handleHit { initPlayer with lives := 1 } ⟨"p1", some "p2"⟩ 0).1).1
        ⟨"p1", some "p2"⟩ 5000).2 ∧
    OutEvent.playerEliminated "p1" "p2" ∈
      (handleHit
        (invulnTimerFire
          (handleHit { initPlayer with lives := 1 } ⟨"p1", some "p2"⟩ 0).1).1
        ⟨"p1", some "p2"⟩ 5000).2 := by
  decide

/-- **C2, amended.** After lives reach 0 there is no terminal eliminated
state: a damage event addressed to the player is rejected only while the
invulnerability window raised by the fatal hit is still active; once
`invulnerable` is false again, a `player:hit` decrements lives further
(below zero) and re-emits `player:damaged`, `PLAYER_HIT` and the
elimination announcements. -/
theorem claim_C2_amended_post_elimination_hits (p : PlayerState)
    (d : HitData) (now : Int) (hid : d.playerId = p.id) (hl : p.lives ≤ 0) :
    (p.invulnerable = true → handleHit p d now = (p, [])) ∧
    (p.invulnerable = false →
      (handleHit p d now).1.lives = p.lives - 1 ∧
      OutEvent.playerDamaged p.id (p.lives - 1) ∈ (handleHit p d now).2 ∧
      OutEvent.serverPlayerHit p.id (d.attackerId.getD p.id) ∈ (handleHit p d now).2 ∧
      OutEvent.playerEliminated p.id (d.attackerId.getD p.id) ∈ (handleHit p d now).2) := by
  constructor
  · intro hinv
    unfold handleHit
    simp [hid, hinv]
  · intro hinv
    have hle : p.lives - 1 ≤ 0 := by omega
    unfold handleHit setInvulnerable
    simp [hid, hinv, hle]

theorem claim_C2_amended_post_elimination_hits_witness :
    (HitData.mk "p1" (some "p2")).playerId =
      ({ initPlayer with lives := 0 } : PlayerState).id ∧
    ({ initPlayer with lives := 0 } : PlayerState).lives ≤ 0 ∧
    ((({ initPlayer with lives := 0 } : PlayerState).invulnerable = true →
       handleHit { initPlayer with lives := 0 } ⟨"p1", some "p2"⟩ 7 =
         ({ initPlayer with lives := 0 }, [])) ∧
     (({ initPlayer with lives := 0 } : PlayerState).invulnerable = false →
       (handleHit { initPlayer with lives := 0 } ⟨"p1", some "p2"⟩ 7).1.lives = 0 - 1 ∧
       OutEvent.playerDamaged "p1" (0 - 1) ∈
         (handleHit { initPlayer with lives := 0 } ⟨"p1", some "p2"⟩ 7).2 ∧
       OutEvent.serverPlayerHit "p1" ((some "p2").getD "p1") ∈
         (handleHit { initPlayer with lives := 0 } ⟨"p1", some "p2"⟩ 7).2 ∧
       OutEvent.playerEliminated "p1" ((some "p2").getD "p1") ∈
         (handleHit { initPlayer with lives := 0 } ⟨"p1", some "p2"⟩ 7).2)) :=
  ⟨rfl, by decide,
   claim_C2_amended_post_elimination_hits { initPlayer with lives := 0 }
     ⟨"p1", some "p2"⟩ 7 rfl (by decide)⟩

/-- **C5, counterexample.** `lives` is *not* monotonically non-increasing:
a `stat:updated` event of type `'extraLife'`, and a verified
`powerup:applied` of type `'extraLife'`, each raise lives from 3 to 4. -/
theorem claim_C5_counterexample :
    initPlayer.lives = 3 ∧
    (handleStatUpdate initPlayer ⟨"p1", .extraLife, 0⟩).1.lives = 4 ∧
    (handlePowerUp initPlayer ⟨"p1", true, .extraLife⟩).1.lives = 4 := by
  decide

/-- **C5, amended.** Lives start at 3 and are changed by exactly two
mechanisms: `handleHit` decrements (never increases) them, and the
`'extraLife'` cases of `handlePowerUp` / `handleStatUpdate` increment
them by one.  Every other modelled operation — non-extraLife power-ups
and stat updates, bomb placement, fuse expiry, the invulnerability
machinery — leaves `lives` unchanged. -/
theorem claim_C5_amended_lives_changes (p : PlayerState) (dp : PowerUpData)
    (ds : StatData) (dh : HitData) (now : Int) (env : BombEnv) (t : FuseTimer)
    (hp : dp.kind ≠ .extraLife) (hs : ds.kind ≠ .extraLife) :
    (handlePowerUp p dp).1.lives = p.lives ∧
    (handleStatUpdate p ds).1.lives = p.lives ∧
    (handleHit p dh now).1.lives ≤ p.lives ∧
    (placeBomb env p).1.lives = p.lives ∧
    (fireFuse p t).1.lives = p.lives ∧
    (setInvulnerable p now).1.lives = p.lives ∧
    (invulnTimerFire p).1.lives = p.lives ∧
    (handlePowerUp p ⟨p.id, true, .extraLife⟩).1.lives = p.lives + 1 ∧
    (handleStatUpdate p ⟨p.id, .extraLife, ds.value⟩).1.lives = p.lives + 1 := by
  refine ⟨?_, ?_, ?_, ?_, ?_, ?_, ?_, ?_, ?_⟩
  · unfold handlePowerUp
    rcases dp with ⟨pid, ver, k⟩
    cases k <;> simp_all <;> split_ifs <;> rfl
  · unfold handleStatUpdate
    rcases ds with ⟨pid, k, v⟩
    cases k <;> simp_all <;> split_ifs <;> rfl
  · unfold handleHit setInvulnerable
    split_ifs <;> simp <;> split_ifs <;> simp
  · unfold placeBomb
    split_ifs <;> rfl
  · rfl
  · rfl
  · rfl
  · unfold handlePowerUp
    simp
  · unfold handleStatUpdate
    simp

theorem claim_C5_amended_lives_changes_witness :
    (PowerUpData.mk "p1" true .flame).kind ≠ PowerupKind.extraLife ∧
    (StatData.mk "p1" .capacity 2).kind ≠ StatKind.extraLife ∧
    ((handlePowerUp initPlayer ⟨"p1", true, .flame⟩).1.lives = 3 ∧
     (handleStatUpdate initPlayer ⟨"p1", .capacity, 2⟩).1.lives = 3 ∧
     (handleHit initPlayer ⟨"p1", none⟩ 0).1.lives ≤ 3 ∧
     (placeBomb ⟨true, false, fun _ => false⟩ initPlayer).1.lives = 3 ∧
     (fireFuse initPlayer ⟨3, 3⟩).1.lives = 3 ∧
     (setInvulnerable initPlayer 0).1.lives = 3 ∧
     (invulnTimerFire initPlayer).1.lives = 3 ∧
     (handlePowerUp initPlayer ⟨"p1", true, .extraLife⟩).1.lives = 3 + 1 ∧
     (handleStatUpdate initPlayer ⟨"p1", .extraLife, 2⟩).1.lives = 3 + 1) :=
  ⟨by decide, by decide,
   claim_C5_amended_lives_changes initPlayer ⟨"p1", true, .flame⟩
     ⟨"p1", .capacity, 2⟩ ⟨"p1", none⟩ 0 ⟨true, false, fun _ => false⟩ ⟨3, 3⟩
     (by decide) (by decide)⟩

end Bomberman
